import Mathlib

/-!
Shallow embedding of get_prices.py: a crypto price fetcher that resolves a
spot price per asset from four exchange APIs in a fixed priority order and
aggregates (symbol, amount) holdings into a valued, sorted portfolio report
with a trailing total row.

Numbers (Python floats) are modelled as rationals, decoded JSON bodies as an
inductive Json type, the HTTP transport as an injected function, and Python
exceptions escaping a function as the error side of Except.
-/

namespace GetPrices

/-- Decoded JSON values, the bodies returned by response.json(). -/
inductive Json where
  | null
  | bool (b : Bool)
  | num (q : ℚ)
  | str (s : String)
  | arr (elems : List Json)
  | obj (fields : List (String × Json))

/-- The Python exceptions that can escape the code paths of get_prices.py. -/
inductive PyExn where
  | typeError
  | keyError
  | indexError
  | attributeError
deriving DecidableEq

/-- Outcome of requests.get(url): either a transport-level failure
(requests.exceptions.RequestException, carrying its message) or a decoded
JSON body. -/
inductive TransportResult where
  | failure (msg : String)
  | success (body : Json)

/-- The injected HTTP transport capability. -/
def Transport : Type := String → TransportResult

instance {ε α : Type} [DecidableEq ε] [DecidableEq α] : DecidableEq (Except ε α) :=
  fun x y =>
    match x, y with
    | .error e, .error e' =>
      if h : e = e' then .isTrue (by rw [h]) else .isFalse (by intro hc; cases hc; exact h rfl)
    | .ok a, .ok a' =>
      if h : a = a' then .isTrue (by rw [h]) else .isFalse (by intro hc; cases hc; exact h rfl)
    | .error _, .ok _ => .isFalse (by intro hc; cases hc)
    | .ok _, .error _ => .isFalse (by intro hc; cases hc)

/-- Python truthiness of a decoded JSON value. -/
def truthy : Json → Bool
  | .null => false
  | .bool b => b
  | .num q => q != 0
  | .str s => s != ""
  | .arr xs => !xs.isEmpty
  | .obj fs => !fs.isEmpty

/-- Python len() on a decoded JSON value: defined for strings, lists and
dicts; none models the TypeError raised otherwise. -/
def pyLen : Json → Option Nat
  | .str s => some s.length
  | .arr xs => some xs.length
  | .obj fs => some fs.length
  | _ => none

/-- Numeric value of a list of decimal digit characters. -/
def digitsToNat (ds : List Char) : Nat :=
  ds.foldl (fun n c => 10 * n + (c.toNat - 48)) 0

/-- Models Python float(s) on a string: an optional sign followed by a
decimal literal (digits with an optional dot and further digits).  none
models the ValueError raised on anything else.  Exotic accepted forms
(exponents, inf/nan, surrounding whitespace) are not modelled; no claim
exercises them. -/
def pyParseFloat (s : String) : Option ℚ :=
  let signed : Bool × List Char :=
    match s.toList with
    | '-' :: rest => (true, rest)
    | '+' :: rest => (false, rest)
    | cs => (false, cs)
  let ip := signed.2.takeWhile Char.isDigit
  let rest := signed.2.dropWhile Char.isDigit
  let mag : Option ℚ :=
    match rest with
    | [] => if ip.isEmpty then none else some (digitsToNat ip)
    | '.' :: afterDot =>
      let fp := afterDot.takeWhile Char.isDigit
      if (afterDot.dropWhile Char.isDigit).isEmpty then
        if ip.isEmpty && fp.isEmpty then none
        else some ((digitsToNat ip : ℚ) + (digitsToNat fp : ℚ) / 10 ^ fp.length)
      else none
    | _ => none
  mag.map (fun q => if signed.1 then -q else q)

/-- Models Python float(x) on a decoded JSON value: numbers and booleans
convert, numeric strings parse, everything else raises
ValueError/TypeError (none).  Both are caught identically by the clients. -/
def pyFloat : Json → Option ℚ
  | .num q => some q
  | .bool b => some (if b then 1 else 0)
  | .str s => pyParseFloat s
  | _ => none

/-- Models Python str() as interpolated by the error f-strings.  Scalars
follow Python's conventions; containers and non-integer numbers are
approximations (no claim exercises those reprs). -/
def pyStr : Json → String
  | .null => "None"
  | .bool b => if b then "True" else "False"
  | .str s => s
  | .num q => if q.den = 1 then toString q.num else toString q
  | .arr _ => "[...]"
  | .obj _ => "\x7b...\x7d"

/-- dict.get(key, default) on a JSON object's field list (keys of a dict
decoded from JSON are unique, so the first match is the match). -/
def jsonGet (fields : List (String × Json)) (k : String) (dflt : Json) : Json :=
  (fields.lookup k).getD dflt

/-- Python == between a decoded JSON value and a string literal (the only
equality comparisons in the source): true exactly for that string. -/
def pyEqStr (j : Json) (s : String) : Bool :=
  match j with
  | .str t => t == s
  | _ => false

/-- The dataclass ExchangePrice: exchange name, price, optional error. -/
structure ExchangePrice where
  exchange : String
  price : ℚ
  error : Option String
deriving DecidableEq

/-- The is_error property: the error field is not None. -/
def ExchangePrice.is_error (r : ExchangePrice) : Bool :=
  r.error.isSome

/-- PriceAPI.token_map: short codes to Coingecko identifiers. -/
def token_map : List (String × String) :=
  [("btc", "bitcoin"), ("eth", "ethereum"), ("sol", "solana"),
   ("xrp", "ripple"), ("ada", "cardano"), ("doge", "dogecoin"),
   ("link", "chainlink"), ("uni", "uniswap"), ("ai16z", "ai16z"),
   ("virtual", "virtual-protocol"), ("sui", "sui"), ("fet", "fetch-ai"),
   ("usdc", "usd-coin"), ("usdt", "tether")]

def upbitUrl (coin : String) : String :=
  "https://api.upbit.com/v1/ticker?markets=KRW-" ++ coin.toUpper

def bithumbUrl (coin : String) : String :=
  "https://api.bithumb.com/public/ticker/" ++ coin ++ "_KRW"

def coinoneUrl (coin : String) : String :=
  "https://api.coinone.co.kr/ticker/?currency=" ++ coin

/-- The Coingecko asset identifier: token_map.get(coin.lower(), coin.lower()). -/
def coingeckoId (coin : String) : String :=
  (token_map.lookup coin.toLower).getD coin.toLower

def coingeckoUrl (coin : String) : String :=
  "https://api.coingecko.com/api/v3/simple/price?ids=" ++ coingeckoId coin ++
    "&vs_currencies=krw"

/-- PriceAPI._make_request: on transport failure return the string
"Error: <detail>" (a Python str), otherwise the decoded JSON body.  A JSON
body that is itself a string is indistinguishable from the error string,
exactly as in the Python code's isinstance(data, str) test. -/
def makeRequest (t : Transport) (url : String) : Json :=
  match t url with
  | .failure msg => .str ("Error: " ++ msg)
  | .success body => body

/-- PriceAPI.get_upbit_price.  The branches mirror the Python line by line;
shapes on which Python raises an uncaught exception (len() of a number,
a dict indexed with 0, an element without .get) become the error side. -/
def get_upbit_price (t : Transport) (coin : String) : Except PyExn ExchangePrice :=
  if coin.toLower = "krw" then .ok (ExchangePrice.mk "Upbit" 1 none)
  else
    match makeRequest t (upbitUrl coin) with
    | .str s => .ok (ExchangePrice.mk "Upbit" 0 (some s))
    | data =>
      if truthy data then
        match pyLen data with
        | none => .error .typeError
        | some n =>
          if 0 < n then
            match data with
            | .arr (first :: _) =>
              match first with
              | .obj fields =>
                match pyFloat (jsonGet fields "trade_price" (.num 0)) with
                | some q => .ok (ExchangePrice.mk "Upbit" q none)
                | none => .ok (ExchangePrice.mk "Upbit" 0 (some "Error: Invalid price data"))
              | _ => .error .attributeError
            | .obj _ => .error .keyError
            | .arr [] => .error .indexError
            | _ => .error .typeError
          else .ok (ExchangePrice.mk "Upbit" 0 (some "Error: Empty response from API"))
      else .ok (ExchangePrice.mk "Upbit" 0 (some "Error: Empty response from API"))

/-- PriceAPI.get_bithumb_price.  data.get on a non-dict body, and .get on a
non-dict data field, raise AttributeError (not caught by the
ValueError/TypeError handler); a missing "data" key raises KeyError. -/
def get_bithumb_price (t : Transport) (coin : String) : Except PyExn ExchangePrice :=
  if coin.toLower = "krw" then .ok (ExchangePrice.mk "Bithumb" 1 none)
  else
    match makeRequest t (bithumbUrl coin) with
    | .str s => .ok (ExchangePrice.mk "Bithumb" 0 (some s))
    | .obj fields =>
      if pyEqStr (jsonGet fields "status" .null) "0000" then
        match fields.lookup "data" with
        | some (.obj innerFields) =>
          match pyFloat (jsonGet innerFields "closing_price" (.num 0)) with
          | some q => .ok (ExchangePrice.mk "Bithumb" q none)
          | none => .ok (ExchangePrice.mk "Bithumb" 0 (some "Error: Invalid price data"))
        | some _ => .error .attributeError
        | none => .error .keyError
      else
        .ok (ExchangePrice.mk "Bithumb" 0
          (some ("Error: API returned status " ++ pyStr (jsonGet fields "status" .null))))
    | _ => .error .attributeError

/-- PriceAPI.get_coinone_price. -/
def get_coinone_price (t : Transport) (coin : String) : Except PyExn ExchangePrice :=
  if coin.toLower = "krw" then .ok (ExchangePrice.mk "Coinone" 1 none)
  else
    match makeRequest t (coinoneUrl coin) with
    | .str s => .ok (ExchangePrice.mk "Coinone" 0 (some s))
    | .obj fields =>
      if pyEqStr (jsonGet fields "errorCode" .null) "0" then
        match pyFloat (jsonGet fields "last" (.num 0)) with
        | some q => .ok (ExchangePrice.mk "Coinone" q none)
        | none => .ok (ExchangePrice.mk "Coinone" 0 (some "Error: Invalid price data"))
      else
        .ok (ExchangePrice.mk "Coinone" 0
          (some ("Error: API returned errorCode " ++
            pyStr (jsonGet fields "errorCode" .null))))
    | _ => .error .attributeError

/-- PriceAPI.get_coingecko_price.  data.get(token_id, default dict) then
.get("krw", 0); only the float conversion is guarded by the
ValueError/TypeError handler, so .get on a non-dict raises AttributeError. -/
def get_coingecko_price (t : Transport) (coin : String) : Except PyExn ExchangePrice :=
  if coin.toLower = "krw" then .ok (ExchangePrice.mk "Coingecko" 1 none)
  else
    match makeRequest t (coingeckoUrl coin) with
    | .str s => .ok (ExchangePrice.mk "Coingecko" 0 (some s))
    | .obj fields =>
      match jsonGet fields (coingeckoId coin) (.obj []) with
      | .obj inner =>
        match pyFloat (jsonGet inner "krw" (.num 0)) with
        | some q => .ok (ExchangePrice.mk "Coingecko" q none)
        | none =>
          .ok (ExchangePrice.mk "Coingecko" 0
            (some ("Error: Unable to get price for " ++ coin)))
      | _ => .error .attributeError
    | _ => .error .attributeError

/-- The ordered exchange list of get_first_valid_price, with display names. -/
def exchanges : List ((Transport → String → Except PyExn ExchangePrice) × String) :=
  [(get_upbit_price, "Upbit"), (get_bithumb_price, "Bithumb"),
   (get_coinone_price, "Coinone"), (get_coingecko_price, "Coingecko")]

/-- The for-loop of get_first_valid_price: a client exception propagates, a
quote with no error and positive price is returned with its exchange name,
otherwise the next client is tried; exhaustion yields the sentinel pair. -/
def resolveLoop (t : Transport) (symbol : String) :
    List ((Transport → String → Except PyExn ExchangePrice) × String) →
      Except PyExn (ℚ × String)
  | [] => .ok (0, "No valid price found")
  | (getPrice, exName) :: rest =>
    match getPrice t symbol with
    | .error e => .error e
    | .ok r =>
      if r.is_error = false ∧ 0 < r.price then .ok (r.price, exName)
      else resolveLoop t symbol rest

/-- PortfolioManager.get_first_valid_price. -/
def get_first_valid_price (t : Transport) (symbol : String) :
    Except PyExn (ℚ × String) :=
  resolveLoop t symbol exchanges

/-- The dataclass CryptoHolding. -/
structure CryptoHolding where
  symbol : String
  amount : ℚ
deriving DecidableEq

/-- One row of the report DataFrame.  The TOTAL row carries pd.NA in
Amount, Price and Exchange, modelled as none. -/
structure Row where
  time : String
  symbol : String
  amount : Option ℚ
  price : Option ℚ
  exchange : Option String
  total_value : ℚ
deriving DecidableEq

/-- The synthetic total row appended after sorting. -/
def totalRow (time : String) (total : ℚ) : Row :=
  Row.mk time "TOTAL" none none none total

/-- A row with the shape of the synthetic total row: symbol "TOTAL" and
pd.NA amount, price and exchange. -/
def isTotalRow (r : Row) : Prop :=
  r.symbol = "TOTAL" ∧ r.amount = none ∧ r.price = none ∧ r.exchange = none

/-- The per-holding loop of calculate_portfolio: resolve a price, compute
value = price * amount, build the row dict.  An exception from a client
propagates out of the loop. -/
def buildRows (t : Transport) (time : String) :
    List CryptoHolding → Except PyExn (List Row)
  | [] => .ok []
  | h :: rest =>
    match get_first_valid_price t h.symbol with
    | .error e => .error e
    | .ok (price, exName) =>
      match buildRows t time rest with
      | .error e => .error e
      | .ok rows =>
        .ok (Row.mk time h.symbol.toUpper (some h.amount) (some price)
              (some exName) (price * h.amount) :: rows)

/-- Descending order on Total Value (KRW), the key of sort_values with
ascending=False. -/
def rowGE (a b : Row) : Prop :=
  b.total_value ≤ a.total_value

instance : DecidableRel rowGE := fun a b =>
  inferInstanceAs (Decidable (b.total_value ≤ a.total_value))

instance : IsTotal Row rowGE := ⟨fun a b => le_total b.total_value a.total_value⟩

instance : IsTrans Row rowGE := ⟨fun _ _ _ h h2 => le_trans h2 h⟩

/-- Models df.sort_values(by="Total Value (KRW)", ascending=False) on the
DataFrame built from the row dicts: pandas raises KeyError when the frame
is empty (a DataFrame built from an empty list has no columns, so the
by-column is missing); otherwise the rows are reordered by value
descending (tie order is left unspecified by the spec; a stable sort
here). -/
def sortValuesDesc (rows : List Row) : Except PyExn (List Row) :=
  match rows with
  | [] => .error .keyError
  | _ => .ok (List.insertionSort rowGE rows)

/-- PortfolioManager.calculate_portfolio: build the per-holding rows and
the running total, sort descending by value, then append the total row.
The loop's running total equals the fold over the built rows' values
(arithmetic is exact here). -/
def calculate_portfolio (t : Transport) (time : String)
    (holdings : List CryptoHolding) : Except PyExn (List Row) :=
  match buildRows t time holdings with
  | .error e => .error e
  | .ok rows =>
    match sortValuesDesc rows with
    | .error e => .error e
    | .ok sorted =>
      .ok (sorted ++ [totalRow time (rows.foldl (fun acc r => acc + r.total_value) 0)])

/-- Python key.split(sep) on the character list: split at every separator
occurrence, keeping empty chunks. -/
def splitChars (sep : Char) : List Char → List (List Char)
  | [] => [[]]
  | c :: rest =>
    if c = sep then [] :: splitChars sep rest
    else
      match splitChars sep rest with
      | [] => [[c]]
      | chunk :: chunks => (c :: chunk) :: chunks

/-- key.split('_')[1].lower(): the segment between the first and second
underscore, lowercased.  The CRYPTO_ prefix guarantees at least two
segments, so the getD default is never reached. -/
def symbolOfKey (key : String) : String :=
  (String.mk ((splitChars '_' key.toList).getD 1 [])).toLower

/-- PortfolioManager.load_holdings over the environment's (name, value)
pairs: keep the CRYPTO_-prefixed entries whose value parses as a float; an
entry with an unparseable value is only warned about (the print is not
modelled) and skipped. -/
def load_holdings : List (String × String) → List CryptoHolding
  | [] => []
  | (key, value) :: rest =>
    if "CRYPTO_".toList.isPrefixOf key.toList then
      match pyParseFloat value with
      | some amount => CryptoHolding.mk (symbolOfKey key) amount :: load_holdings rest
      | none => load_holdings rest
    else load_holdings rest

/-- True when a Python exception escaped the call instead of a value being
returned. -/
def raisesExn {α : Type} (x : Except PyExn α) : Bool :=
  match x with
  | .error _ => true
  | .ok _ => false

/-- The client probed at each position of the priority order. -/
def clientAt : Fin 4 → Transport → String → Except PyExn ExchangePrice
  | ⟨0, _⟩ => get_upbit_price
  | ⟨1, _⟩ => get_bithumb_price
  | ⟨2, _⟩ => get_coinone_price
  | ⟨3, _⟩ => get_coingecko_price

/-- The exchange name attributed at each position of the priority order. -/
def nameAt : Fin 4 → String
  | ⟨0, _⟩ => "Upbit"
  | ⟨1, _⟩ => "Bithumb"
  | ⟨2, _⟩ => "Coinone"
  | ⟨3, _⟩ => "Coingecko"

/-- The URL each position's client hands to the transport for a symbol. -/
def urlAt : Fin 4 → String → String
  | ⟨0, _⟩ => upbitUrl
  | ⟨1, _⟩ => bithumbUrl
  | ⟨2, _⟩ => coinoneUrl
  | ⟨3, _⟩ => coingeckoUrl

/-! Concrete transports and inputs used by witnesses and counterexamples. -/

/-- A transport on which every request fails. -/
def failTransport : Transport := fun _ => .failure "down"

/-- Upbit answers with a one-element array whose element lacks the
trade_price field (so the lookup falls back to the default 0). -/
def zeroTradeTransport : Transport := fun url =>
  if url = upbitUrl "btc" then .success (.arr [.obj []]) else .failure "down"

/-- Bithumb answers with a JSON array body (a shape the client never
guards against). -/
def arrBodyTransport : Transport := fun url =>
  if url = bithumbUrl "btc" then .success (.arr []) else .failure "down"

/-- Coingecko answers with an object that lacks the asset identifier. -/
def emptyObjTransport : Transport := fun url =>
  if url = coingeckoUrl "btc" then .success (.obj []) else .failure "down"

/-- Upbit fails, Bithumb answers a valid quote of 100. -/
def bithumbOkTransport : Transport := fun url =>
  if url = bithumbUrl "btc" then
    .success (.obj [("status", .str "0000"), ("data", .obj [("closing_price", .str "100")])])
  else .failure "down"

/-- Same as bithumbOkTransport on the Upbit and Bithumb URLs, different
beyond them. -/
def bithumbOkTransport' : Transport := fun url =>
  if url = coinoneUrl "btc" then .failure "changed"
  else if url = coingeckoUrl "btc" then .failure "changed"
  else bithumbOkTransport url

/-- Upbit quotes 100 for btc and 5 for eth. -/
def twoCoinTransport : Transport := fun url =>
  if url = upbitUrl "btc" then .success (.arr [.obj [("trade_price", .num 100)]])
  else if url = upbitUrl "eth" then .success (.arr [.obj [("trade_price", .num 5)]])
  else .failure "down"

/-- Bithumb reports success status but a null closing price. -/
def bithumbNullPriceTransport : Transport := fun url =>
  if url = bithumbUrl "btc" then
    .success (.obj [("status", .str "0000"), ("data", .obj [("closing_price", .null)])])
  else .failure "down"

/-- Coingecko carries the asset identifier but a null krw value. -/
def geckoNullTransport : Transport := fun url =>
  if url = coingeckoUrl "btc" then
    .success (.obj [("bitcoin", .obj [("krw", .null)])])
  else .failure "down"

/-- The report produced from holdings [(eth, 1), (btc, 1)] under
twoCoinTransport: the btc row (value 100) sorts above the eth row
(value 5), the total row closes the report. -/
def witnessReport : List Row :=
  [Row.mk "now" "BTC" (some 1) (some 100) (some "Upbit") 100,
   Row.mk "now" "ETH" (some 1) (some 5) (some "Upbit") 5,
   totalRow "now" 105]

/-- The admission rule of load_holdings, stated per entry for comparison
with the loop: a CRYPTO_-prefixed name whose value parses as a float (of
any sign) yields a holding with the derived symbol; anything else yields
nothing. -/
def admittedEntry (kv : String × String) : Option CryptoHolding :=
  if "CRYPTO_".toList.isPrefixOf kv.1.toList then
    (pyParseFloat kv.2).map (fun a => CryptoHolding.mk (symbolOfKey kv.1) a)
  else none

/-!
Theorems.  Each claim of the specification gets one theorem (plus a
counterexample where the claim fails on the code and a witness where the
theorem carries hypotheses); shared helper lemmas come first.
-/

theorem upbit_transport_agree (t₁ t₂ : Transport) (coin : String)
    (h : t₁ (upbitUrl coin) = t₂ (upbitUrl coin)) :
    get_upbit_price t₁ coin = get_upbit_price t₂ coin := by
  unfold get_upbit_price makeRequest
  rw [h]

theorem bithumb_transport_agree (t₁ t₂ : Transport) (coin : String)
    (h : t₁ (bithumbUrl coin) = t₂ (bithumbUrl coin)) :
    get_bithumb_price t₁ coin = get_bithumb_price t₂ coin := by
  unfold get_bithumb_price makeRequest
  rw [h]

theorem coinone_transport_agree (t₁ t₂ : Transport) (coin : String)
    (h : t₁ (coinoneUrl coin) = t₂ (coinoneUrl coin)) :
    get_coinone_price t₁ coin = get_coinone_price t₂ coin := by
  unfold get_coinone_price makeRequest
  rw [h]

theorem coingecko_transport_agree (t₁ t₂ : Transport) (coin : String)
    (h : t₁ (coingeckoUrl coin) = t₂ (coingeckoUrl coin)) :
    get_coingecko_price t₁ coin = get_coingecko_price t₂ coin := by
  unfold get_coingecko_price makeRequest
  rw [h]

/-- C8: for a symbol case-insensitively equal to the quote currency "krw",
every one of the four exchange clients returns price 1.0 with no error;
the result is the same for every transport, so the transport is never
consulted. -/
theorem krw_peg (t : Transport) (coin : String) (h : coin.toLower = "krw") :
    get_upbit_price t coin = .ok (ExchangePrice.mk "Upbit" 1 none) ∧
    get_bithumb_price t coin = .ok (ExchangePrice.mk "Bithumb" 1 none) ∧
    get_coinone_price t coin = .ok (ExchangePrice.mk "Coinone" 1 none) ∧
    get_coingecko_price t coin = .ok (ExchangePrice.mk "Coingecko" 1 none) := by
  refine ⟨?_, ?_, ?_, ?_⟩ <;>
    simp [get_upbit_price, get_bithumb_price, get_coinone_price, get_coingecko_price, h]

theorem resolver_eval (t : Transport) (s : String) (i : Fin 4) (r : ExchangePrice)
    (hbefore : ∀ j : Fin 4, j < i →
      ∃ q, clientAt j t s = .ok q ∧ ¬(q.is_error = false ∧ 0 < q.price))
    (hacc : clientAt i t s = .ok r)
    (hr : r.is_error = false ∧ 0 < r.price) :
    get_first_valid_price t s = .ok (r.price, nameAt i) := by
  fin_cases i
  · have ha : get_upbit_price t s = .ok r := hacc
    simp [get_first_valid_price, exchanges, resolveLoop, ha, hr.1, hr.2, nameAt]
  · obtain ⟨q0, h0, h0n⟩ := hbefore 0 (by decide)
    have h0' : get_upbit_price t s = .ok q0 := h0
    have ha : get_bithumb_price t s = .ok r := hacc
    simp [get_first_valid_price, exchanges, resolveLoop, h0', h0n, ha, hr.1, hr.2, nameAt]
  · obtain ⟨q0, h0, h0n⟩ := hbefore 0 (by decide)
    obtain ⟨q1, h1, h1n⟩ := hbefore 1 (by decide)
    have h0' : get_upbit_price t s = .ok q0 := h0
    have h1' : get_bithumb_price t s = .ok q1 := h1
    have ha : get_coinone_price t s = .ok r := hacc
    simp [get_first_valid_price, exchanges, resolveLoop, h0', h0n, h1', h1n, ha,
          hr.1, hr.2, nameAt]
  · obtain ⟨q0, h0, h0n⟩ := hbefore 0 (by decide)
    obtain ⟨q1, h1, h1n⟩ := hbefore 1 (by decide)
    obtain ⟨q2, h2, h2n⟩ := hbefore 2 (by decide)
    have h0' : get_upbit_price t s = .ok q0 := h0
    have h1' : get_bithumb_price t s = .ok q1 := h1
    have h2' : get_coinone_price t s = .ok q2 := h2
    have ha : get_coingecko_price t s = .ok r := hacc
    simp [get_first_valid_price, exchanges, resolveLoop, h0', h0n, h1', h1n, h2', h2n,
          ha, hr.1, hr.2, nameAt]

theorem client_transport_agree (t₁ t₂ : Transport) (s : String) (j : Fin 4)
    (h : t₁ (urlAt j s) = t₂ (urlAt j s)) :
    clientAt j t₁ s = clientAt j t₂ s := by
  fin_cases j
  · exact upbit_transport_agree t₁ t₂ s h
  · exact bithumb_transport_agree t₁ t₂ s h
  · exact coinone_transport_agree t₁ t₂ s h
  · exact coingecko_transport_agree t₁ t₂ s h

/-- C1: the resolver probes the clients in the fixed order Upbit, Bithumb,
Coinone, Coingecko; if the clients before position i do not accept (their
quotes carry an error or a non-positive price) and the client at position
i returns a quote with no error and positive price, the resolver returns
that quote's price paired with that client's exchange name — and the
result is identical under any transport that agrees on the URLs up to
position i, so no client after the accepted one is ever consulted. -/
theorem resolver_first_acceptance
    (t₁ t₂ : Transport) (s : String) (i : Fin 4) (r : ExchangePrice)
    (hagree : ∀ j : Fin 4, j ≤ i → t₁ (urlAt j s) = t₂ (urlAt j s))
    (hbefore : ∀ j : Fin 4, j < i →
      ∃ q, clientAt j t₁ s = .ok q ∧ ¬(q.is_error = false ∧ 0 < q.price))
    (hacc : clientAt i t₁ s = .ok r)
    (hr : r.is_error = false ∧ 0 < r.price) :
    get_first_valid_price t₁ s = .ok (r.price, nameAt i) ∧
    get_first_valid_price t₂ s = .ok (r.price, nameAt i) := by
  have hclient : ∀ j : Fin 4, j ≤ i → clientAt j t₁ s = clientAt j t₂ s :=
    fun j hj => client_transport_agree t₁ t₂ s j (hagree j hj)
  refine ⟨resolver_eval t₁ s i r hbefore hacc hr, ?_⟩
  refine resolver_eval t₂ s i r ?_ ?_ hr
  · intro j hj
    obtain ⟨q, hq, hqn⟩ := hbefore j hj
    exact ⟨q, (hclient j (le_of_lt hj)).symm.trans hq, hqn⟩
  · exact (hclient i le_rfl).symm.trans hacc

theorem resolver_first_acceptance_witness :
    get_first_valid_price bithumbOkTransport "btc" = .ok ((100 : ℚ), "Bithumb") ∧
    get_first_valid_price bithumbOkTransport' "btc" = .ok ((100 : ℚ), "Bithumb") :=
  resolver_first_acceptance bithumbOkTransport bithumbOkTransport' "btc" 1
    (ExchangePrice.mk "Bithumb" 100 none)
    (by
      intro j hj
      fin_cases j
      · with_unfolding_all rfl
      · with_unfolding_all rfl
      · exact absurd hj (by decide)
      · exact absurd hj (by decide))
    (by
      intro j hj
      fin_cases j
      · exact ⟨ExchangePrice.mk "Upbit" 0 (some "Error: down"),
               by with_unfolding_all decide, by decide⟩
      · exact absurd hj (by decide)
      · exact absurd hj (by decide)
      · exact absurd hj (by decide))
    (by with_unfolding_all decide)
    (by decide)

/-- C2: when each of the four clients returns a quote that carries an
error or a non-positive price, the resolver returns exactly
(0, "No valid price found") as an ordinary value (no exception), and the
aggregation of a holding of that symbol still succeeds, producing a row of
value 0 bearing that literal source label plus the total row. -/
theorem resolver_all_rejected (t : Transport) (s : String) (time : String) (a : ℚ)
    (h : ∀ j : Fin 4, ∃ q, clientAt j t s = .ok q ∧ ¬(q.is_error = false ∧ 0 < q.price)) :
    get_first_valid_price t s = .ok (0, "No valid price found") ∧
    calculate_portfolio t time [CryptoHolding.mk s a] =
      .ok [Row.mk time s.toUpper (some a) (some 0) (some "No valid price found") 0,
           totalRow time 0] := by
  obtain ⟨q0, h0, h0n⟩ := h 0
  obtain ⟨q1, h1, h1n⟩ := h 1
  obtain ⟨q2, h2, h2n⟩ := h 2
  obtain ⟨q3, h3, h3n⟩ := h 3
  have h0' : get_upbit_price t s = .ok q0 := h0
  have h1' : get_bithumb_price t s = .ok q1 := h1
  have h2' : get_coinone_price t s = .ok q2 := h2
  have h3' : get_coingecko_price t s = .ok q3 := h3
  have hres : get_first_valid_price t s = .ok (0, "No valid price found") := by
    simp [get_first_valid_price, exchanges, resolveLoop, h0', h1', h2', h3',
          h0n, h1n, h2n, h3n]
  refine ⟨hres, ?_⟩
  simp [calculate_portfolio, buildRows, hres, sortValuesDesc, List.insertionSort,
        List.orderedInsert, totalRow]

theorem resolver_all_rejected_witness :
    get_first_valid_price failTransport "btc" = .ok (0, "No valid price found") ∧
    calculate_portfolio failTransport "now" [CryptoHolding.mk "btc" 2] =
      .ok [Row.mk "now" ("btc".toUpper) (some 2) (some 0) (some "No valid price found") 0,
           totalRow "now" 0] :=
  resolver_all_rejected failTransport "btc" "now" 2 (by
    intro j
    fin_cases j
    · exact ⟨ExchangePrice.mk "Upbit" 0 (some "Error: down"),
             by with_unfolding_all decide, by decide⟩
    · exact ⟨ExchangePrice.mk "Bithumb" 0 (some "Error: down"),
             by with_unfolding_all decide, by decide⟩
    · exact ⟨ExchangePrice.mk "Coinone" 0 (some "Error: down"),
             by with_unfolding_all decide, by decide⟩
    · exact ⟨ExchangePrice.mk "Coingecko" 0 (some "Error: down"),
             by with_unfolding_all decide, by decide⟩)

theorem upbit_error_price (t : Transport) (coin : String) (r : ExchangePrice)
    (h : get_upbit_price t coin = .ok r) (he : r.is_error = true) : r.price = 0 := by
  unfold get_upbit_price at h
  repeat' split at h
  all_goals cases h
  all_goals simp_all [ExchangePrice.is_error]

theorem bithumb_error_price (t : Transport) (coin : String) (r : ExchangePrice)
    (h : get_bithumb_price t coin = .ok r) (he : r.is_error = true) : r.price = 0 := by
  unfold get_bithumb_price at h
  repeat' split at h
  all_goals cases h
  all_goals simp_all [ExchangePrice.is_error]

theorem coinone_error_price (t : Transport) (coin : String) (r : ExchangePrice)
    (h : get_coinone_price t coin = .ok r) (he : r.is_error = true) : r.price = 0 := by
  unfold get_coinone_price at h
  repeat' split at h
  all_goals cases h
  all_goals simp_all [ExchangePrice.is_error]

theorem coingecko_error_price (t : Transport) (coin : String) (r : ExchangePrice)
    (h : get_coingecko_price t coin = .ok r) (he : r.is_error = true) : r.price = 0 := by
  unfold get_coingecko_price at h
  repeat' split at h
  all_goals cases h
  all_goals simp_all [ExchangePrice.is_error]

/-- C5 counterexample: probing Upbit for btc against a response whose
first array element lacks the trade_price field yields the quote
(price 0, error absent), so neither disjunct of the claimed invariant
(positive price with no error, or error present) holds for it. -/
theorem quote_invariant_cex :
    get_upbit_price zeroTradeTransport "btc" = .ok (ExchangePrice.mk "Upbit" 0 none) ∧
    ¬(0 < (ExchangePrice.mk "Upbit" 0 none).price ∧
        (ExchangePrice.mk "Upbit" 0 none).error = none) ∧
    ¬((ExchangePrice.mk "Upbit" 0 none).error ≠ none) :=
  ⟨by with_unfolding_all decide, by decide, by decide⟩

/-- C5 (amended): every quote any of the four clients returns with the
error field populated carries price 0; when the error field is absent the
price is the parsed source value, which the code does not constrain to be
positive (a missing, zero or negative source value yields price 0 or a
negative price with no error). -/
theorem quote_error_implies_zero_price (t : Transport) (coin : String) (r : ExchangePrice) :
    (get_upbit_price t coin = .ok r → r.is_error = true → r.price = 0) ∧
    (get_bithumb_price t coin = .ok r → r.is_error = true → r.price = 0) ∧
    (get_coinone_price t coin = .ok r → r.is_error = true → r.price = 0) ∧
    (get_coingecko_price t coin = .ok r → r.is_error = true → r.price = 0) :=
  ⟨upbit_error_price t coin r, bithumb_error_price t coin r,
   coinone_error_price t coin r, coingecko_error_price t coin r⟩

theorem quote_error_implies_zero_price_witness :
    get_upbit_price failTransport "btc" =
      .ok (ExchangePrice.mk "Upbit" 0 (some "Error: down")) ∧
    (ExchangePrice.mk "Upbit" 0 (some "Error: down")).price = 0 :=
  ⟨by with_unfolding_all decide,
   (quote_error_implies_zero_price failTransport "btc"
      (ExchangePrice.mk "Upbit" 0 (some "Error: down"))).1
     (by with_unfolding_all decide) (by decide)⟩

/-- C7 counterexample: a Coingecko response that simply lacks the asset
identifier yields the quote (price 0, no error): the lookup falls back to
the default 0, which converts successfully, so the claimed error message
is not produced. -/
theorem coingecko_missing_cex :
    get_coingecko_price emptyObjTransport "btc" = .ok (ExchangePrice.mk "Coingecko" 0 none) ∧
    (ExchangePrice.mk "Coingecko" 0 none).error ≠
      some "Error: Unable to get price for btc" :=
  ⟨by with_unfolding_all decide, by decide⟩

/-- C7 (amended): when the asset identifier or the krw entry is missing
from the Coingecko response the defaults make the lookup produce 0, which
parses, so the quote is (price 0, no error); the error
"Error: Unable to get price for <symbol>" arises only when a krw entry is
present but its value fails the float conversion. -/
theorem coingecko_error_conditions (t : Transport) (coin : String)
    (hk : coin.toLower ≠ "krw") :
    (∀ fields, t (coingeckoUrl coin) = .success (.obj fields) →
      fields.lookup (coingeckoId coin) = none →
      get_coingecko_price t coin = .ok (ExchangePrice.mk "Coingecko" 0 none)) ∧
    (∀ fields inner, t (coingeckoUrl coin) = .success (.obj fields) →
      fields.lookup (coingeckoId coin) = some (.obj inner) →
      inner.lookup "krw" = none →
      get_coingecko_price t coin = .ok (ExchangePrice.mk "Coingecko" 0 none)) ∧
    (∀ fields inner v, t (coingeckoUrl coin) = .success (.obj fields) →
      fields.lookup (coingeckoId coin) = some (.obj inner) →
      inner.lookup "krw" = some v → pyFloat v = none →
      get_coingecko_price t coin = .ok (ExchangePrice.mk "Coingecko" 0
        (some ("Error: Unable to get price for " ++ coin)))) := by
  refine ⟨?_, ?_, ?_⟩
  · intro fields ht hmiss
    simp [get_coingecko_price, hk, makeRequest, ht, jsonGet, hmiss, pyFloat]
  · intro fields inner ht hid hmiss
    simp [get_coingecko_price, hk, makeRequest, ht, jsonGet, hid, hmiss, pyFloat]
  · intro fields inner v ht hid hv hbad
    simp [get_coingecko_price, hk, makeRequest, ht, jsonGet, hid, hv, hbad]

theorem coingecko_error_conditions_witness :
    get_coingecko_price emptyObjTransport "btc" =
      .ok (ExchangePrice.mk "Coingecko" 0 none) ∧
    get_coingecko_price geckoNullTransport "btc" =
      .ok (ExchangePrice.mk "Coingecko" 0 (some "Error: Unable to get price for btc")) :=
  ⟨(coingecko_error_conditions emptyObjTransport "btc" (by with_unfolding_all decide)).1 []
      (by with_unfolding_all rfl) (by rfl),
   (coingecko_error_conditions geckoNullTransport "btc" (by with_unfolding_all decide)).2.2
      [("bitcoin", .obj [("krw", .null)])] [("krw", .null)] .null
      (by with_unfolding_all rfl) (by with_unfolding_all rfl)
      (by with_unfolding_all rfl) (by rfl)⟩

theorem foldl_add_totals (rows : List Row) (init : ℚ) :
    rows.foldl (fun acc r => acc + r.total_value) init
      = init + (rows.map Row.total_value).sum := by
  induction rows generalizing init with
  | nil => simp
  | cons r rest ih => simp [ih, add_assoc]

theorem buildRows_amount (t : Transport) (time : String) :
    ∀ (hs : List CryptoHolding) (rows : List Row),
      buildRows t time hs = .ok rows → ∀ r ∈ rows, r.amount.isSome := by
  intro hs
  induction hs with
  | nil =>
    intro rows h r hr
    cases h
    cases hr
  | cons hd tl ih =>
    intro rows h r hr
    unfold buildRows at h
    cases hg : get_first_valid_price t hd.symbol with
    | error e => rw [hg] at h; cases h
    | ok pe =>
      rw [hg] at h
      obtain ⟨price, exName⟩ := pe
      cases hb : buildRows t time tl with
      | error e => rw [hb] at h; simp at h
      | ok rows' =>
        rw [hb] at h
        simp only [Except.ok.injEq] at h
        subst h
        simp only [List.mem_cons] at hr
        rcases hr with rfl | hr
        · simp
        · exact ih rows' hb r hr

theorem calculate_portfolio_ok_shape (t : Transport) (time : String)
    (hs : List CryptoHolding) (rep : List Row)
    (h : calculate_portfolio t time hs = .ok rep) :
    ∃ rows, buildRows t time hs = .ok rows ∧ rows ≠ [] ∧
      rep = List.insertionSort rowGE rows ++
        [totalRow time (rows.foldl (fun acc r => acc + r.total_value) 0)] := by
  unfold calculate_portfolio at h
  cases hb : buildRows t time hs with
  | error e => rw [hb] at h; cases h
  | ok rows =>
    rw [hb] at h
    cases rows with
    | nil => simp [sortValuesDesc] at h
    | cons r0 rest =>
      simp only [sortValuesDesc] at h
      simp only [Except.ok.injEq] at h
      exact ⟨r0 :: rest, rfl, by simp, h.symm⟩

/-- C3 counterexample: for the empty holdings list the code raises
KeyError (sort_values on a DataFrame built from an empty list, which has
no columns), so no report is produced at all — in particular not the
claimed single-TotalRow report of value 0. -/
theorem portfolio_empty_cex :
    calculate_portfolio failTransport "now" [] = .error .keyError ∧
    calculate_portfolio failTransport "now" [] ≠ .ok [totalRow "now" 0] :=
  ⟨by rfl, by with_unfolding_all decide⟩

/-- C3 (amended): whenever the aggregator returns a report (it raises
KeyError for the empty holdings list instead, as the second conjunct
records), the report ends in exactly one total-shaped row whose value is
exactly the sum of the values of the preceding per-holding rows, none of
which is total-shaped. -/
theorem portfolio_total_row_sum (t : Transport) (time : String)
    (holdings : List CryptoHolding) (rep : List Row)
    (h : calculate_portfolio t time holdings = .ok rep) :
    (∃ tr, rep.getLast? = some tr ∧ isTotalRow tr ∧
      tr.total_value = (rep.dropLast.map Row.total_value).sum ∧
      ∀ r ∈ rep.dropLast, ¬ isTotalRow r) ∧
    calculate_portfolio t time [] = .error .keyError := by
  constructor
  · obtain ⟨rows, hb, hne, rfl⟩ := calculate_portfolio_ok_shape t time holdings rep h
    refine ⟨totalRow time (rows.foldl (fun acc r => acc + r.total_value) 0),
            List.getLast?_concat _, ⟨rfl, rfl, rfl, rfl⟩, ?_, ?_⟩
    · rw [List.dropLast_concat]
      show rows.foldl _ 0 = ((List.insertionSort rowGE rows).map Row.total_value).sum
      rw [foldl_add_totals, zero_add]
      exact (((List.perm_insertionSort rowGE rows).map Row.total_value).sum_eq).symm
    · rw [List.dropLast_concat]
      intro r hr hc
      have hmem : r ∈ rows := ((List.perm_insertionSort rowGE rows).mem_iff).mp hr
      have hs := buildRows_amount t time holdings rows hb r hmem
      rw [hc.2.1] at hs
      simp at hs
  · rfl

theorem portfolio_total_row_sum_witness :
    (∃ tr, witnessReport.getLast? = some tr ∧ isTotalRow tr ∧
      tr.total_value = (witnessReport.dropLast.map Row.total_value).sum ∧
      ∀ r ∈ witnessReport.dropLast, ¬ isTotalRow r) ∧
    calculate_portfolio twoCoinTransport "now" [] = .error .keyError :=
  portfolio_total_row_sum twoCoinTransport "now"
    [CryptoHolding.mk "eth" 1, CryptoHolding.mk "btc" 1] witnessReport
    (by with_unfolding_all decide)

/-- C4: whenever the aggregator returns a report, the per-holding rows
(all rows except the last) are ordered by value descending — each
adjacent pair satisfies rowGE — and the last row is the total-shaped row,
appended after sorting regardless of its own value. -/
theorem portfolio_rows_sorted_desc (t : Transport) (time : String)
    (holdings : List CryptoHolding) (rep : List Row)
    (h : calculate_portfolio t time holdings = .ok rep) :
    List.Chain' rowGE rep.dropLast ∧
    ∃ tr, rep.getLast? = some tr ∧ isTotalRow tr := by
  obtain ⟨rows, hb, hne, rfl⟩ := calculate_portfolio_ok_shape t time holdings rep h
  constructor
  · rw [List.dropLast_concat]
    exact List.Pairwise.chain' (List.sorted_insertionSort rowGE rows)
  · exact ⟨_, List.getLast?_concat _, rfl, rfl, rfl, rfl⟩

theorem portfolio_rows_sorted_desc_witness :
    List.Chain' rowGE witnessReport.dropLast ∧
    ∃ tr, witnessReport.getLast? = some tr ∧ isTotalRow tr :=
  portfolio_rows_sorted_desc twoCoinTransport "now"
    [CryptoHolding.mk "eth" 1, CryptoHolding.mk "btc" 1] witnessReport
    (by with_unfolding_all decide)

/-- C6 counterexample: Bithumb probed with a JSON array body: data.get
raises AttributeError, which the except (ValueError, TypeError) clause
does not catch, so the exception escapes the client instead of an error
quote being returned. -/
theorem client_raises_cex :
    get_bithumb_price arrBodyTransport "btc" = .error .attributeError ∧
    raisesExn (get_bithumb_price arrBodyTransport "btc") = true :=
  ⟨by with_unfolding_all decide, by with_unfolding_all decide⟩

/-- C6 (amended): transport failures are captured by every client as a
quote (price 0, error "Error: <detail>"), and a failed float conversion
of the price field within the expected response shape is captured as
(price 0, "Error: Invalid price data") — for Coingecko, "Error: Unable to
get price for <symbol>"; but a response whose containers have an
unexpected shape makes the client raise an uncaught exception past its
boundary instead. -/
theorem client_error_capture (t : Transport) (coin : String) (msg : String)
    (hk : coin.toLower ≠ "krw") :
    (t (upbitUrl coin) = .failure msg →
      get_upbit_price t coin = .ok (ExchangePrice.mk "Upbit" 0 (some ("Error: " ++ msg)))) ∧
    (t (bithumbUrl coin) = .failure msg →
      get_bithumb_price t coin = .ok (ExchangePrice.mk "Bithumb" 0 (some ("Error: " ++ msg)))) ∧
    (t (coinoneUrl coin) = .failure msg →
      get_coinone_price t coin = .ok (ExchangePrice.mk "Coinone" 0 (some ("Error: " ++ msg)))) ∧
    (t (coingeckoUrl coin) = .failure msg →
      get_coingecko_price t coin = .ok (ExchangePrice.mk "Coingecko" 0 (some ("Error: " ++ msg)))) ∧
    (∀ fields restElems, t (upbitUrl coin) = .success (.arr (.obj fields :: restElems)) →
      pyFloat (jsonGet fields "trade_price" (.num 0)) = none →
      get_upbit_price t coin = .ok (ExchangePrice.mk "Upbit" 0 (some "Error: Invalid price data"))) ∧
    (∀ fields innerFields, t (bithumbUrl coin) = .success (.obj fields) →
      jsonGet fields "status" .null = .str "0000" →
      fields.lookup "data" = some (.obj innerFields) →
      pyFloat (jsonGet innerFields "closing_price" (.num 0)) = none →
      get_bithumb_price t coin =
        .ok (ExchangePrice.mk "Bithumb" 0 (some "Error: Invalid price data"))) ∧
    (∀ fields, t (coinoneUrl coin) = .success (.obj fields) →
      jsonGet fields "errorCode" .null = .str "0" →
      pyFloat (jsonGet fields "last" (.num 0)) = none →
      get_coinone_price t coin =
        .ok (ExchangePrice.mk "Coinone" 0 (some "Error: Invalid price data"))) ∧
    (∀ fields inner, t (coingeckoUrl coin) = .success (.obj fields) →
      jsonGet fields (coingeckoId coin) (.obj []) = .obj inner →
      pyFloat (jsonGet inner "krw" (.num 0)) = none →
      get_coingecko_price t coin = .ok (ExchangePrice.mk "Coingecko" 0
        (some ("Error: Unable to get price for " ++ coin)))) := by
  refine ⟨?_, ?_, ?_, ?_, ?_, ?_, ?_, ?_⟩
  · intro ht
    simp [get_upbit_price, makeRequest, ht, hk]
  · intro ht
    simp [get_bithumb_price, makeRequest, ht, hk]
  · intro ht
    simp [get_coinone_price, makeRequest, ht, hk]
  · intro ht
    simp [get_coingecko_price, makeRequest, ht, hk]
  · intro fields restElems ht hbad
    simp [get_upbit_price, makeRequest, ht, hk, truthy, pyLen, hbad]
  · intro fields innerFields ht hst hdata hbad
    simp [get_bithumb_price, makeRequest, ht, hk, hst, pyEqStr, hdata, hbad]
  · intro fields ht hec hbad
    simp [get_coinone_price, makeRequest, ht, hk, hec, pyEqStr, hbad]
  · intro fields inner ht hid hbad
    simp [get_coingecko_price, makeRequest, ht, hk, hid, hbad]

theorem client_error_capture_witness :
    get_upbit_price failTransport "btc" =
      .ok (ExchangePrice.mk "Upbit" 0 (some "Error: down")) ∧
    get_bithumb_price failTransport "btc" =
      .ok (ExchangePrice.mk "Bithumb" 0 (some "Error: down")) ∧
    get_coinone_price failTransport "btc" =
      .ok (ExchangePrice.mk "Coinone" 0 (some "Error: down")) ∧
    get_coingecko_price failTransport "btc" =
      .ok (ExchangePrice.mk "Coingecko" 0 (some "Error: down")) ∧
    get_bithumb_price bithumbNullPriceTransport "btc" =
      .ok (ExchangePrice.mk "Bithumb" 0 (some "Error: Invalid price data")) := by
  have h := client_error_capture failTransport "btc" "down" (by with_unfolding_all decide)
  have h2 := client_error_capture bithumbNullPriceTransport "btc" "down"
    (by with_unfolding_all decide)
  exact ⟨h.1 (by rfl), h.2.1 (by rfl), h.2.2.1 (by rfl), h.2.2.2.1 (by rfl),
         h2.2.2.2.2.2.1 [("status", .str "0000"), ("data", .obj [("closing_price", .null)])]
           [("closing_price", .null)] (by with_unfolding_all rfl) (by rfl) (by rfl) (by rfl)⟩

/-- C9 counterexample: the environment entry CRYPTO_BTC=-5 is admitted to
the holdings set with the negative amount -5, although -5 is not
parseable as a positive or zero decimal. -/
theorem load_holdings_negative_cex :
    load_holdings [("CRYPTO_BTC", "-5")] = [CryptoHolding.mk "btc" (-5)] ∧
    (CryptoHolding.mk "btc" (-5 : ℚ)).amount < 0 :=
  ⟨by with_unfolding_all decide, by decide⟩

/-- C9 (amended): an environment entry is admitted to the holdings set
exactly when its name has the CRYPTO_ prefix and its value parses as a
float of any sign (negative amounts included); an entry whose value fails
to parse is skipped with only a warning and the remaining entries are
still processed, so the run is not aborted. -/
theorem load_holdings_characterization (env : List (String × String)) :
    load_holdings env = env.filterMap admittedEntry := by
  induction env with
  | nil => rfl
  | cons kv rest ih =>
    obtain ⟨key, value⟩ := kv
    simp only [load_holdings, List.filterMap_cons, admittedEntry]
    by_cases hp : "CRYPTO_".toList.isPrefixOf key.toList
    · rw [if_pos hp, if_pos hp]
      cases hq : pyParseFloat value
      · simp only [hq, Option.map_none', ih]
      · simp only [hq, Option.map_some', ih]
    · rw [if_neg hp, if_neg hp]
      exact ih

theorem splitChars_not_mem (sep : Char) (l₁ l₂ : List Char) (h : sep ∉ l₁) :
    splitChars sep (l₁ ++ sep :: l₂) = l₁ :: splitChars sep l₂ := by
  induction l₁ with
  | nil => simp [splitChars]
  | cons c cs ih =>
    simp only [List.mem_cons, not_or] at h
    obtain ⟨h1, h2⟩ := h
    rw [List.cons_append]
    rw [splitChars]
    rw [if_neg (fun hh => h1 hh.symm), ih h2]

/-- C10: for an environment variable CRYPTO_<mid>_<tail> (with mid free of
underscores), the derived holding symbol is only the lowercased segment
between the first and second underscore; the tail is dropped. -/
theorem symbol_truncation (mid rest v : String) (a : ℚ)
    (hmid : '_' ∉ mid.toList) (hv : pyParseFloat v = some a) :
    load_holdings [("CRYPTO_" ++ mid ++ "_" ++ rest, v)] =
      [CryptoHolding.mk mid.toLower a] := by
  have hkey : ("CRYPTO_" ++ mid ++ "_" ++ rest).toList
      = "CRYPTO".toList ++ '_' :: (mid.toList ++ '_' :: rest.toList) := by
    show ("CRYPTO_" ++ mid ++ "_" ++ rest).data
        = "CRYPTO".data ++ '_' :: (mid.data ++ '_' :: rest.data)
    simp only [String.data_append, List.append_assoc]
    rfl
  have hpre : "CRYPTO_".toList.isPrefixOf (("CRYPTO_" ++ mid ++ "_" ++ rest).toList) = true := by
    rw [List.isPrefixOf_iff_prefix, hkey]
    exact ⟨mid.toList ++ '_' :: rest.toList, by simp⟩
  have hsym : symbolOfKey ("CRYPTO_" ++ mid ++ "_" ++ rest) = mid.toLower := by
    unfold symbolOfKey
    rw [hkey, splitChars_not_mem _ _ _ (by decide), splitChars_not_mem _ _ _ hmid]
    rfl
  simp only [load_holdings, hpre, if_true, hv, hsym]

theorem symbol_truncation_witness :
    load_holdings [("CRYPTO_" ++ "USD" ++ "_" ++ "COIN", "1.5")] =
      [CryptoHolding.mk ("USD".toLower) (3/2)] :=
  symbol_truncation "USD" "COIN" "1.5" (3/2) (by decide) (by with_unfolding_all decide)

theorem krw_peg_witness :
    get_upbit_price failTransport "KRW" = .ok (ExchangePrice.mk "Upbit" 1 none) ∧
    get_bithumb_price failTransport "KRW" = .ok (ExchangePrice.mk "Bithumb" 1 none) ∧
    get_coinone_price failTransport "KRW" = .ok (ExchangePrice.mk "Coinone" 1 none) ∧
    get_coingecko_price failTransport "KRW" = .ok (ExchangePrice.mk "Coingecko" 1 none) :=
  krw_peg failTransport "KRW" (by with_unfolding_all decide)

end GetPrices
